import Mathlib

/-!
# OpenThread CLI bridge (`components/openthread/src/esp_openthread_cli.c`)

A shallow embedding of the CLI bridge: the output callback that turns the
OpenThread prompt into a task notification, the worker-side handler
`line_handle_task`, the submit function `esp_openthread_cli_input`, the console
adapter `ot_cli_console_callback` and one iteration of `ot_cli_loop`.

Conventions.
* A C string is the list of its bytes before the terminating NUL.
* A task handle is a natural number; `none` is the NULL handle.
* Every function returns the calls it made, in order, next to the shared
  state it leaves, so that orderings can be stated on the list of calls.
* Collaborators that live outside the file (allocator, task queue, command
  registry, OpenThread CLI, other tasks) are parameters of the functions.
-/

namespace OtCli

/-! ## Constants -/

def OT_CLI_MAX_LINE_LENGTH : Nat := 256

/-- The bytes of `"esp "`. -/
def ESP_CONSOLE_PREFIX : List Nat := [101, 115, 112, 32]

def ESP_CONSOLE_PREFIX_LENGTH : Nat := 4

/-- The bytes of `"> "`, the OpenThread prompt. -/
def PROMPT : List Nat := [62, 32]

def ESP_OK : Int := 0
def ESP_FAIL : Int := -1
def ESP_ERR_NO_MEM : Int := 0x101
def ESP_ERR_INVALID_ARG : Int := 0x102
def ESP_ERR_NOT_FOUND : Int := 0x105

/-! ## Data model -/

/-- The task functions that this file posts to the worker task queue. -/
inductive Handler where
  | line_handle_task
deriving DecidableEq, Repr

/-- The texts printed by the file, one constructor per format string. -/
inductive Msg where
  | crlf
  | unrecognized_command
  | command_is_empty
  | nonzero_error_code (ret : Int)
  | internal_error (err : Int)
  | task_is_busy (line : List Nat)
deriving DecidableEq, Repr

/-- The calls a function of the file makes, in program order. -/
inductive Event where
  | printf (m : Msg)
  | vprintf (text : List Nat)
  | log_error
  | esp_console_run (cmdline : List Nat)
  | esp_openthread_cli_input (line : List Nat)
  | strdup (line : List Nat) (result : Option Nat)
  | task_queue_post (task : Handler) (arg : Nat) (result : Int)
  | store_s_cli_task (value : Option Nat)
  | xTaskNotifyGive (task : Nat)
  | xTaskNotifyWait
  | otCliInputLine (line : List Nat)
  | otCliInputLine_return
  | free (p : Nat)
  | linenoiseHistoryAdd (line : List Nat)
  | linenoiseFree (line : Option (List Nat))
deriving DecidableEq, Repr

/-- The state shared by the tasks: the single waiter slot `s_cli_task`, the
live heap blocks (address, contents), the worker task queue and the tasks
that have a notification pending. -/
structure State where
  s_cli_task : Option Nat
  heap : List (Nat × List Nat)
  queue : List (Handler × Nat)
  pending : List Nat
deriving DecidableEq, Repr

/-- What a function did: its calls in order, the state it left, whether the
calling task is parked for ever in `xTaskNotifyWait`, and its `int` result. -/
structure Run where
  calls : List Event
  state : State
  blocked : Bool
  ret : Int
deriving DecidableEq, Repr

/-! ## libc -/

/-- Bounded length of a C string: `strnlen(s, maxlen)`. -/
def strnlen (s : List Nat) (maxlen : Nat) : Nat := min s.length maxlen

/-- Byte-wise comparison of the first `n` bytes of two memory areas; the
result is the difference at the first position where they differ. -/
def memcmp : List Nat → List Nat → Nat → Int
  | _, _, 0 => 0
  | a :: as, b :: bs, n + 1 => if a = b then memcmp as bs n else (a : Int) - (b : Int)
  | _, _, _ + 1 => 0

/-- Comparison of at most `n` characters of two C strings, the terminating NUL
included. -/
def strncmp : List Nat → List Nat → Nat → Int
  | _, _, 0 => 0
  | [], [], _ + 1 => 0
  | [], b :: _, _ + 1 => - (b : Int)
  | a :: _, [], _ + 1 => (a : Int)
  | a :: as, b :: bs, n + 1 => if a = b then strncmp as bs n else (a : Int) - (b : Int)

/-- Rendering into a buffer of `size` bytes keeps the first `size - 1` bytes of
the formatted text (and terminates them); `text` is the formatted output. -/
def vsnprintf (size : Nat) (text : List Nat) : List Nat := text.take (size - 1)

/-- An address that is not the address of any live block, and is not NULL. -/
def fresh (heap : List (Nat × List Nat)) : Nat :=
  (heap.map Prod.fst).foldr max 0 + 1

/-- Heap duplication of a C string: `strdup`. `ok = false` is allocation
failure (NULL result). -/
def strdup (ok : Bool) (line : List Nat) (s : State) : Option Nat × State :=
  if ok then
    (some (fresh s.heap), { s with heap := s.heap ++ [(fresh s.heap, line)] })
  else
    (none, s)

/-- Contents of the live block at address `p`. -/
def heap_read (p : Nat) (s : State) : Option (List Nat) :=
  (s.heap.find? (fun b => b.1 == p)).map Prod.snd

/-- Release of the block at `p`: `free`. -/
def free (p : Nat) (s : State) : State :=
  { s with heap := s.heap.filter (fun b => b.1 != p) }

/-- Length of the C string held in a buffer; `none` when the buffer holds no
NUL, where `strlen` would run past its end. -/
def strlen (buf : List Nat) : Option Nat :=
  if 0 ∈ buf then some (buf.takeWhile (fun b => b != 0)).length else none

/-- The C string held in a buffer: its bytes before the first NUL. -/
def c_str (buf : List Nat) : List Nat := buf.takeWhile (fun b => b != 0)

/-- Subtraction of `size_t` values (32 bits on the targets of this file). -/
def size_sub (a b : Nat) : Nat := (a + 2 ^ 32 - b % 2 ^ 32) % 2 ^ 32

/-- Copy with padding: `strncpy(dest, src, n)` writes exactly `n` bytes, the first
bytes of `src` and then NULs. `none` when the `n` bytes do not fit `dest`. -/
def strncpy (dest src : List Nat) (n : Nat) : Option (List Nat) :=
  if n ≤ dest.length then
    some (src.take n ++ List.replicate (n - src.length) 0 ++ dest.drop n)
  else none

/-- Bounded append: `strncat(dest, src, n)` writes at most `n` bytes of `src` at
the end of the string in `dest` and then a NUL. `none` when `dest` holds no
string or when a written byte falls outside `dest`. -/
def strncat (dest src : List Nat) (n : Nat) : Option (List Nat) :=
  match strlen dest with
  | none => none
  | some d =>
    if d + min n src.length + 1 ≤ dest.length then
      some (dest.take d ++ src.take n ++ 0 :: dest.drop (d + min n src.length + 1))
    else none

/-! ## Collaborators outside the file -/

/-- Modelled from the spec: the signal half of the notification primitive of
the Completion Signal Channel (`xTaskNotifyGive` of the kernel, which is not
among the sources). A signal marks the task as having a notification pending,
so that a signal issued before the matching wait is not lost. -/
def xTaskNotifyGive (task : Nat) (s : State) : State :=
  if task ∈ s.pending then s else { s with pending := task :: s.pending }

/-- Modelled from the spec: the wait half of the notification primitive
(`xTaskNotifyWait(0, 0, NULL, portMAX_DELAY)` of the kernel, which is not among
the sources). The wait returns when the calling task has a notification
pending and consumes it; `none` when no notification is pending, where the
task stays blocked (there is no timeout). -/
def xTaskNotifyWait (self : Nat) (s : State) : Option State :=
  if self ∈ s.pending then
    some { s with pending := s.pending.filter (fun t => t != self) }
  else none

/-- Modelled from the spec: the Worker Task Queue contract
`post(handler, payload) -> Result<Empty, Full>` (`esp_openthread_task_queue_post`,
which is not among the sources). On success the work item enters the queue at
its tail; on failure the queue is unchanged and the payload stays with the
caller. -/
def esp_openthread_task_queue_post (ok : Bool) (task : Handler) (arg : Nat)
    (s : State) : Int × State :=
  if ok then (ESP_OK, { s with queue := s.queue ++ [(task, arg)] }) else (ESP_FAIL, s)

/-- The collaborators of the two front ends: whether the allocation inside
`strdup` succeeds, whether the queue accepts the work item, the command
registry (`esp_console_run`: command line, previous `ret` and state to the pair
of invocation error and `ret`, and the state its handler leaves), and what the
other tasks do to the shared state from the moment the work item is posted
until the caller's wait is over. -/
structure Env where
  malloc_ok : Bool
  post_ok : Bool
  esp_console_run : List Nat → Int → State → (Int × Int) × State
  others : State → State

/-! ## The functions of `esp_openthread_cli.c` -/

/-- Lines 30-42. `text` is the output formatted from `format` and `args`. -/
def cli_output_callback (text : List Nat) (s : State) : Run :=
  let prompt_check := vsnprintf 3 text
  if strncmp prompt_check PROMPT 3 = 0 then
    match s.s_cli_task with
    | some task => Run.mk [Event.xTaskNotifyGive task] (xTaskNotifyGive task s) false 0
    | none => Run.mk [Event.vprintf text] s false text.length
  else
    Run.mk [Event.vprintf text] s false text.length

/-- The output callback applied to each output of the CLI in turn. -/
def cli_outputs : List (List Nat) → State → List Event × State
  | [], s => ([], s)
  | text :: rest, s =>
    let r := cli_output_callback text s
    let k := cli_outputs rest r.state
    (r.calls ++ k.1, k.2)

/-- Lines 49-55. `cli` gives the outputs that `otCliInputLine` sends to the
output callback while it executes a line. `none` when `context` is not a live
buffer. -/
def line_handle_task (cli : List Nat → List (List Nat)) (context : Nat)
    (s : State) : Option Run :=
  match heap_read context s with
  | none => none
  | some line =>
    let k := cli_outputs (cli line) s
    some (Run.mk
      ([Event.otCliInputLine line] ++ k.1 ++ [Event.otCliInputLine_return, Event.free context])
      (free context k.2) false 0)

/-- Lines 57-64. The result `ret` is the `esp_err_t` returned. -/
def esp_openthread_cli_input (malloc_ok post_ok : Bool) (line : List Nat)
    (s : State) : Run :=
  let d := strdup malloc_ok line s
  match d.1 with
  | none => Run.mk [Event.strdup line none, Event.log_error] d.2 false ESP_ERR_NO_MEM
  | some line_copy =>
    let q := esp_openthread_task_queue_post post_ok Handler.line_handle_task line_copy d.2
    Run.mk [Event.strdup line (some line_copy),
            Event.task_queue_post Handler.line_handle_task line_copy q.1] q.2 false q.1

/-- One turn of the `for` loop of lines 70-73: the buffer after the `strncat` of
the space and after the `strncat` of the argument. -/
def cli_cmd_turn (cli_cmd arg : List Nat) : Option (List Nat × List Nat) :=
  match strlen cli_cmd with
  | none => none
  | some l1 =>
    match strncat cli_cmd [32] (size_sub (size_sub OT_CLI_MAX_LINE_LENGTH l1) 1) with
    | none => none
    | some b1 =>
      match strlen b1 with
      | none => none
      | some l2 =>
        match strncat b1 arg (size_sub (size_sub OT_CLI_MAX_LINE_LENGTH l2) 1) with
        | none => none
        | some b2 => some (b1, b2)

/-- The `for` loop of lines 70-73 over `argv[2..argc-1]`: the buffers after each
`strncat`, in order. -/
def cli_cmd_loop : List Nat → List (List Nat) → Option (List (List Nat))
  | _, [] => some []
  | cli_cmd, arg :: rest =>
    match cli_cmd_turn cli_cmd arg with
    | none => none
    | some (b1, b2) =>
      match cli_cmd_loop b2 rest with
      | none => none
      | some tl => some (b1 :: b2 :: tl)

/-- Lines 68-73: the 256-byte buffer `cli_cmd` after its initialisation and
after each `strncpy`/`strncat`, in order. `none` when `argv[1]` is NULL
(`argc < 2`) or when a call reads or writes outside the buffer. -/
def cli_cmd_steps (argv : List (List Nat)) : Option (List (List Nat)) :=
  match argv with
  | _ :: arg1 :: rest =>
    let b0 := List.replicate OT_CLI_MAX_LINE_LENGTH 0
    match strlen b0 with
    | none => none
    | some l0 =>
      match strncpy b0 arg1 (size_sub (size_sub OT_CLI_MAX_LINE_LENGTH l0) 1) with
      | none => none
      | some b1 =>
        match cli_cmd_loop b1 rest with
        | none => none
        | some tl => some (b0 :: b1 :: tl)
  | _ => none

/-- Lines 66-82, called by task `self` with the argument vector `argv` (`argc` is
its length). `none` when building `cli_cmd` faults. -/
def ot_cli_console_callback (env : Env) (self : Nat) (argv : List (List Nat))
    (s : State) : Option Run :=
  match cli_cmd_steps argv with
  | none => none
  | some steps =>
    let cli_cmd := c_str (steps.getLastD [])
    let s1 := { s with s_cli_task := some self }
    let r := esp_openthread_cli_input env.malloc_ok env.post_ok cli_cmd s1
    let pre := [Event.store_s_cli_task (some self), Event.esp_openthread_cli_input cli_cmd]
      ++ r.calls
    if r.ret = ESP_OK then
      let s2 := env.others r.state
      match xTaskNotifyWait self s2 with
      | some s3 =>
        some (Run.mk (pre ++ [Event.xTaskNotifyWait, Event.store_s_cli_task none])
          { s3 with s_cli_task := none } false 0)
      | none => some (Run.mk (pre ++ [Event.xTaskNotifyWait]) s2 true 0)
    else
      some (Run.mk (pre ++ [Event.printf (Msg.task_is_busy cli_cmd), Event.store_s_cli_task none])
        { r.state with s_cli_task := none } false 0)

/-- The report of lines 125-134 on the outcome of `esp_console_run`. -/
def report (err ret : Int) : List Event :=
  if err = ESP_ERR_NOT_FOUND then [Event.printf Msg.unrecognized_command]
  else if err = ESP_ERR_INVALID_ARG then [Event.printf Msg.command_is_empty]
  else if err = ESP_OK ∧ ret ≠ ESP_OK then [Event.printf (Msg.nonzero_error_code ret)]
  else if err ≠ ESP_OK then [Event.printf (Msg.internal_error err)]
  else []

/-- One iteration of the `while (true)` of lines 119-145, run by task `self`
on the `line` that `linenoise` returned (`none` is NULL), with the current value
of the local `ret`; the result `ret` is the value of the local afterwards. -/
def ot_cli_loop (env : Env) (self : Nat) (ret : Int) (line : Option (List Nat))
    (s : State) : Run :=
  match line with
  | none => Run.mk [Event.linenoiseFree none] s false ret
  | some l =>
    if strnlen l OT_CLI_MAX_LINE_LENGTH = 0 then
      Run.mk [Event.linenoiseFree (some l)] s false ret
    else if memcmp (l ++ [0]) ESP_CONSOLE_PREFIX ESP_CONSOLE_PREFIX_LENGTH = 0 then
      let cmdline := l.drop ESP_CONSOLE_PREFIX_LENGTH
      let r := env.esp_console_run cmdline ret s
      Run.mk ([Event.printf Msg.crlf, Event.esp_console_run cmdline] ++ report r.1.1 r.1.2
          ++ [Event.linenoiseHistoryAdd l, Event.linenoiseFree (some l)])
        r.2 false r.1.2
    else
      let r := esp_openthread_cli_input env.malloc_ok env.post_ok l s
      let pre := [Event.printf Msg.crlf, Event.esp_openthread_cli_input l] ++ r.calls
      if r.ret = ESP_OK then
        let s1 := env.others r.state
        match xTaskNotifyWait self s1 with
        | some s2 =>
          Run.mk (pre ++ [Event.xTaskNotifyWait, Event.linenoiseHistoryAdd l,
            Event.linenoiseFree (some l)]) s2 false ret
        | none => Run.mk (pre ++ [Event.xTaskNotifyWait]) s1 true ret
      else
        Run.mk (pre ++ [Event.printf (Msg.task_is_busy l), Event.linenoiseHistoryAdd l,
          Event.linenoiseFree (some l)]) r.state false ret

/-- Lines 148-153: `xTaskCreate` stores the handle of the task it created for
`ot_cli_loop` into `s_cli_task`; `created = none` when no task could be created,
where nothing is stored. -/
def esp_openthread_cli_create_task (created : Option Nat) (s : State) : State :=
  match created with
  | some h => { s with s_cli_task := some h }
  | none => s

/-! ## Observations on a list of calls -/

/-- The command lines handed to the command registry. -/
def registry_calls (calls : List Event) : List (List Nat) :=
  calls.filterMap (fun e => match e with
    | Event.esp_console_run c => some c
    | _ => none)

/-- The lines handed to `esp_openthread_cli_input`. -/
def submit_calls (calls : List Event) : List (List Nat) :=
  calls.filterMap (fun e => match e with
    | Event.esp_openthread_cli_input l => some l
    | _ => none)

/-- The payloads posted to the worker task queue. -/
def post_calls (calls : List Event) : List Nat :=
  calls.filterMap (fun e => match e with
    | Event.task_queue_post _ p _ => some p
    | _ => none)

/-- The lines added to the history. -/
def history_calls (calls : List Event) : List (List Nat) :=
  calls.filterMap (fun e => match e with
    | Event.linenoiseHistoryAdd l => some l
    | _ => none)

/-- The values stored into `s_cli_task`. -/
def slot_stores (calls : List Event) : List (Option Nat) :=
  calls.filterMap (fun e => match e with
    | Event.store_s_cli_task v => some v
    | _ => none)

/-- The addresses released with `free`. -/
def free_calls (calls : List Event) : List Nat :=
  calls.filterMap (fun e => match e with
    | Event.free p => some p
    | _ => none)

/-- The tasks notified with `xTaskNotifyGive`. -/
def notify_calls (calls : List Event) : List Nat :=
  calls.filterMap (fun e => match e with
    | Event.xTaskNotifyGive t => some t
    | _ => none)

/-- The buffer `b` holds the C string `c`: the bytes of `c`, none of them NUL,
then a NUL; `b` has the 256 bytes of `cli_cmd` and its last byte is NUL. -/
def holds (b c : List Nat) : Prop :=
  (∃ rest, b = c ++ 0 :: rest) ∧ b.length = OT_CLI_MAX_LINE_LENGTH ∧
    b.getLast? = some 0 ∧ ∀ x ∈ c, x ≠ 0

/-! ## Sample inputs -/

/-- The bytes of `"state"`. -/
def state_cmd : List Nat := [115, 116, 97, 116, 101]

/-- The bytes of `"esp state"`. -/
def esp_state : List Nat := [101, 115, 112, 32, 115, 116, 97, 116, 101]

/-- The bytes of `"ot"`, the name under which the console adapter is registered. -/
def ot_name : List Nat := [111, 116]

/-- The state before any task is created: no waiter, empty heap and queue. -/
def idle : State := State.mk none [] [] []

/-- A command registry with an empty table: every command line is not found. -/
def no_commands (_ : List Nat) (ret : Int) (s : State) : (Int × Int) × State :=
  ((ESP_ERR_NOT_FOUND, ret), s)

/-- An OpenThread CLI that answers every line with `"Done\r\n"` and the prompt. -/
def cli_done (_ : List Nat) : List (List Nat) :=
  [[68, 111, 110, 101, 13, 10], PROMPT]

/-- The worker taking the item at the head of its queue and running the
handler on the payload. -/
def worker_process (cli : List Nat → List (List Nat)) (s : State) : State :=
  match s.queue with
  | [] => s
  | (Handler.line_handle_task, p) :: rest =>
    match line_handle_task cli p { s with queue := rest } with
    | some r => r.state
    | none => { s with queue := rest }

/-- Allocation and post succeed, the registry is empty, and the worker runs
the head of its queue while the caller waits. -/
def env_worker : Env := Env.mk true true no_commands (worker_process cli_done)

set_option maxRecDepth 100000

theorem memcmp_prefix_iff (l : List Nat) :
    memcmp (l ++ [0]) ESP_CONSOLE_PREFIX ESP_CONSOLE_PREFIX_LENGTH = 0 ↔
      l.take 4 = ESP_CONSOLE_PREFIX := by
  rcases l with _ | ⟨a, _ | ⟨b, _ | ⟨c, _ | ⟨d, l⟩⟩⟩⟩ <;>
    simp only [memcmp, ESP_CONSOLE_PREFIX, ESP_CONSOLE_PREFIX_LENGTH, List.nil_append,
      List.cons_append, List.take] <;>
    (repeat' split) <;> simp_all <;> omega

theorem strnlen_eq_zero_iff (l : List Nat) :
    strnlen l OT_CLI_MAX_LINE_LENGTH = 0 ↔ l = [] := by
  cases l <;> simp [strnlen, OT_CLI_MAX_LINE_LENGTH]

theorem report_printf (err ret : Int) : ∀ e ∈ report err ret, ∃ m, e = Event.printf m := by
  intro e he
  unfold report at he
  split_ifs at he <;> simp at he <;> exact ⟨_, he⟩

theorem registry_calls_input (m q : Bool) (l : List Nat) (s : State) :
    registry_calls (esp_openthread_cli_input m q l s).calls = [] := by
  unfold esp_openthread_cli_input strdup registry_calls
  cases m <;> rfl

theorem submit_calls_input (m q : Bool) (l : List Nat) (s : State) :
    submit_calls (esp_openthread_cli_input m q l s).calls = [] := by
  unfold esp_openthread_cli_input strdup submit_calls
  cases m <;> rfl

theorem slot_stores_input (m q : Bool) (l : List Nat) (s : State) :
    slot_stores (esp_openthread_cli_input m q l s).calls = [] := by
  unfold esp_openthread_cli_input strdup slot_stores
  cases m <;> rfl

theorem input_s_cli_task (m q : Bool) (l : List Nat) (s : State) :
    (esp_openthread_cli_input m q l s).state.s_cli_task = s.s_cli_task := by
  unfold esp_openthread_cli_input strdup esp_openthread_task_queue_post
  cases m <;> cases q <;> rfl

theorem xTaskNotifyWait_s_cli_task (self : Nat) (s t : State)
    (h : xTaskNotifyWait self s = some t) : t.s_cli_task = s.s_cli_task := by
  unfold xTaskNotifyWait at h
  split_ifs at h
  cases h
  rfl

/-! ## Routing of the interactive loop -/

/-- C1: every non-empty line read by `ot_cli_loop` goes to exactly one
execution context. When its first four bytes are `"esp "` the loop calls the
command registry once, on the line without those four bytes, and neither calls
`esp_openthread_cli_input` nor posts to the worker queue; otherwise it calls
`esp_openthread_cli_input` once, on the whole line, and never calls the
registry. -/
theorem ot_cli_loop_routes_line (env : Env) (self : Nat) (ret : Int) (line : List Nat)
    (s : State) (hne : line ≠ []) :
    (line.take 4 = ESP_CONSOLE_PREFIX →
      registry_calls (ot_cli_loop env self ret (some line) s).calls = [line.drop 4] ∧
      submit_calls (ot_cli_loop env self ret (some line) s).calls = [] ∧
      post_calls (ot_cli_loop env self ret (some line) s).calls = []) ∧
    (line.take 4 ≠ ESP_CONSOLE_PREFIX →
      submit_calls (ot_cli_loop env self ret (some line) s).calls = [line] ∧
      registry_calls (ot_cli_loop env self ret (some line) s).calls = []) := by
  have h0 : ¬ strnlen line OT_CLI_MAX_LINE_LENGTH = 0 := by
    rw [strnlen_eq_zero_iff]; exact hne
  constructor
  · intro hp
    have hm := (memcmp_prefix_iff line).mpr hp
    simp only [ot_cli_loop, h0, hm, if_true, if_false]
    refine ⟨?_, ?_, ?_⟩
    · simp [registry_calls, List.filterMap_append, ESP_CONSOLE_PREFIX_LENGTH]
      intro a ha
      obtain ⟨m, rfl⟩ := report_printf _ _ a ha
      rfl
    · simp [submit_calls, List.filterMap_append]
      intro a ha
      obtain ⟨m, rfl⟩ := report_printf _ _ a ha
      rfl
    · simp [post_calls, List.filterMap_append]
      intro a ha
      obtain ⟨m, rfl⟩ := report_printf _ _ a ha
      rfl
  · intro hp
    have hm : ¬ memcmp (line ++ [0]) ESP_CONSOLE_PREFIX ESP_CONSOLE_PREFIX_LENGTH = 0 := by
      rw [memcmp_prefix_iff]; exact hp
    have hs := submit_calls_input env.malloc_ok env.post_ok line s
    have hr := registry_calls_input env.malloc_ok env.post_ok line s
    simp only [submit_calls] at hs
    simp only [registry_calls] at hr
    simp only [ot_cli_loop, h0, hm, if_false]
    split_ifs
    · split <;> simp [submit_calls, registry_calls, List.filterMap_append, hs, hr]
    · simp [submit_calls, registry_calls, List.filterMap_append, hs, hr]

/-- Witness of C1 on the line `"esp state"`: the registry runs `"state"`, and
nothing is submitted or posted to the worker. -/
theorem ot_cli_loop_routes_line_witness :
    esp_state ≠ [] ∧ esp_state.take 4 = ESP_CONSOLE_PREFIX ∧
    registry_calls (ot_cli_loop env_worker 7 0 (some esp_state) idle).calls = [state_cmd] ∧
    submit_calls (ot_cli_loop env_worker 7 0 (some esp_state) idle).calls = [] ∧
    post_calls (ot_cli_loop env_worker 7 0 (some esp_state) idle).calls = [] :=
  ⟨by decide, by decide,
    (ot_cli_loop_routes_line env_worker 7 0 esp_state idle (by decide)).1 (by decide)⟩

/-! ## Submit -/

theorem le_foldr_max (l : List Nat) : ∀ a ∈ l, a ≤ l.foldr max 0 := by
  induction l with
  | nil => intro a ha; cases ha
  | cons b l ih =>
    intro a ha
    rcases List.mem_cons.mp ha with rfl | h
    · exact le_max_left _ _
    · exact le_trans (ih a h) (le_max_right _ _)

theorem fresh_not_live (heap : List (Nat × List Nat)) : fresh heap ∉ heap.map Prod.fst := by
  intro h
  have := le_foldr_max _ _ h
  unfold fresh at this
  omega

theorem find_append_fresh (heap : List (Nat × List Nat)) (p : Nat) (x : List Nat)
    (hp : p ∉ heap.map Prod.fst) :
    (heap ++ [(p, x)]).find? (fun b => b.1 == p) = some (p, x) := by
  induction heap with
  | nil => simp
  | cons b heap ih =>
    have hb : b.1 ≠ p := fun h => hp (by simp [h])
    have hp2 : p ∉ heap.map Prod.fst := fun h => hp (by simp at h ⊢; exact Or.inr h)
    have hb2 : (b.1 == p) = false := by simpa using hb
    rw [List.cons_append, List.find?_cons, hb2]
    exact ih hp2

/-- C2: when the duplication and the post both succeed,
`esp_openthread_cli_input` returns `ESP_OK` and posts exactly one work item,
at the tail of the worker queue; the item pairs `line_handle_task` with a
non-NULL buffer that was not live before the call and whose contents equal the
line; the blocks that were live before (the caller's line among them) are
unchanged, and nothing is freed. -/
theorem esp_openthread_cli_input_posts_copy (line : List Nat) (s : State) :
    (esp_openthread_cli_input true true line s).ret = ESP_OK ∧
    ∃ p, p ≠ 0 ∧ p ∉ s.heap.map Prod.fst ∧
      (esp_openthread_cli_input true true line s).state.queue
        = s.queue ++ [(Handler.line_handle_task, p)] ∧
      post_calls (esp_openthread_cli_input true true line s).calls = [p] ∧
      heap_read p (esp_openthread_cli_input true true line s).state = some line ∧
      (esp_openthread_cli_input true true line s).state.heap = s.heap ++ [(p, line)] ∧
      free_calls (esp_openthread_cli_input true true line s).calls = [] := by
  refine ⟨rfl, fresh s.heap, ?_, fresh_not_live s.heap, rfl, rfl, ?_, rfl, rfl⟩
  · unfold fresh; omega
  · simp [esp_openthread_cli_input, strdup, esp_openthread_task_queue_post, heap_read,
      find_append_fresh s.heap (fresh s.heap) line (fresh_not_live s.heap)]

/-- C3, the code on the failing input: the line `"state"`, duplicated at
address 1, when the queue refuses the item. `esp_openthread_cli_input` returns
`ESP_FAIL`, calls `free` nowhere, and the duplicate is still live on return
although nothing refers to it: the queue is empty. -/
theorem esp_openthread_cli_input_post_failure_leaks :
    (esp_openthread_cli_input true false state_cmd idle).ret = ESP_FAIL ∧
    (esp_openthread_cli_input true false state_cmd idle).calls
      = [Event.strdup state_cmd (some 1),
         Event.task_queue_post Handler.line_handle_task 1 ESP_FAIL] ∧
    free_calls (esp_openthread_cli_input true false state_cmd idle).calls = [] ∧
    (esp_openthread_cli_input true false state_cmd idle).state.heap = [(1, state_cmd)] ∧
    (esp_openthread_cli_input true false state_cmd idle).state.queue = [] := by
  refine ⟨rfl, rfl, rfl, rfl, rfl⟩

/-! ## The waiter slot -/

theorem ot_cli_loop_worker_branch_slot (env : Env) (self : Nat) (ret : Int)
    (line : List Nat) (s : State) (hne : line ≠ [])
    (hp : line.take 4 ≠ ESP_CONSOLE_PREFIX)
    (hothers : ∀ t, (env.others t).s_cli_task = t.s_cli_task) :
    slot_stores (ot_cli_loop env self ret (some line) s).calls = [] ∧
    (ot_cli_loop env self ret (some line) s).state.s_cli_task = s.s_cli_task := by
  have h0 : ¬ strnlen line OT_CLI_MAX_LINE_LENGTH = 0 := by
    rw [strnlen_eq_zero_iff]; exact hne
  have hm : ¬ memcmp (line ++ [0]) ESP_CONSOLE_PREFIX ESP_CONSOLE_PREFIX_LENGTH = 0 := by
    rw [memcmp_prefix_iff]; exact hp
  have hs := slot_stores_input env.malloc_ok env.post_ok line s
  have hi := input_s_cli_task env.malloc_ok env.post_ok line s
  simp only [slot_stores] at hs
  simp only [ot_cli_loop, h0, hm, if_false]
  split_ifs
  · split
    · rename_i s2 hw
      refine ⟨by simp [slot_stores, List.filterMap_append, hs], ?_⟩
      simp only
      rw [xTaskNotifyWait_s_cli_task _ _ _ hw, hothers, hi]
    · refine ⟨by simp [slot_stores, List.filterMap_append, hs], ?_⟩
      simp only
      rw [hothers, hi]
  · exact ⟨by simp [slot_stores, List.filterMap_append, hs], hi⟩

/-- C4, as stated, fails: after `esp_openthread_cli_create_task` stored the
handle 7 of the loop task, the loop reads the line `"state"`, the submit
succeeds and the worker signals. The iteration returns without a single store
to `s_cli_task`, and the slot still holds 7 when the loop is back to awaiting
input. -/
theorem ot_cli_loop_slot_not_cleared :
    (ot_cli_loop env_worker 7 0 (some state_cmd)
      (esp_openthread_cli_create_task (some 7) idle)).blocked = false ∧
    slot_stores (ot_cli_loop env_worker 7 0 (some state_cmd)
      (esp_openthread_cli_create_task (some 7) idle)).calls = [] ∧
    (ot_cli_loop env_worker 7 0 (some state_cmd)
      (esp_openthread_cli_create_task (some 7) idle)).state.s_cli_task = some 7 ∧
    (ot_cli_loop env_worker 7 0 (some state_cmd)
      (esp_openthread_cli_create_task (some 7) idle)).state.s_cli_task ≠ none := by
  decide

/-- C4, amended: on a non-empty line without the local prefix `ot_cli_loop`
never writes `s_cli_task`, neither before the submit nor after it; when no other
task writes the slot meanwhile, the slot holds at the end of the iteration the
value it held at its start, whether the submit failed or succeeded. In
particular, once `esp_openthread_cli_create_task` has stored the handle `h` that
`xTaskCreate` gave to the loop task, the slot holds `h`, not NULL, at the end of
the iteration. -/
theorem ot_cli_loop_never_writes_slot (env : Env) (self : Nat) (ret : Int)
    (line : List Nat) (s : State) (hne : line ≠ [])
    (hp : line.take 4 ≠ ESP_CONSOLE_PREFIX)
    (hothers : ∀ t, (env.others t).s_cli_task = t.s_cli_task) :
    slot_stores (ot_cli_loop env self ret (some line) s).calls = [] ∧
    (ot_cli_loop env self ret (some line) s).state.s_cli_task = s.s_cli_task ∧
    ∀ h, (ot_cli_loop env self ret (some line)
      (esp_openthread_cli_create_task (some h) s)).state.s_cli_task = some h := by
  have h1 := ot_cli_loop_worker_branch_slot env self ret line s hne hp hothers
  refine ⟨h1.1, h1.2, ?_⟩
  intro h
  rw [(ot_cli_loop_worker_branch_slot env self ret line
    (esp_openthread_cli_create_task (some h) s) hne hp hothers).2]
  rfl

theorem cli_output_callback_s_cli_task (text : List Nat) (s : State) :
    (cli_output_callback text s).state.s_cli_task = s.s_cli_task := by
  simp only [cli_output_callback]
  split_ifs
  · split
    · simp only [xTaskNotifyGive]; split_ifs <;> rfl
    · rfl
  · rfl

theorem cli_outputs_s_cli_task (texts : List (List Nat)) (s : State) :
    (cli_outputs texts s).2.s_cli_task = s.s_cli_task := by
  induction texts generalizing s with
  | nil => rfl
  | cons text rest ih =>
    simp only [cli_outputs]
    rw [ih, cli_output_callback_s_cli_task]

theorem worker_process_s_cli_task (cli : List Nat → List (List Nat)) (s : State) :
    (worker_process cli s).s_cli_task = s.s_cli_task := by
  unfold worker_process
  split
  · rfl
  · split
    · rename_i r h
      unfold line_handle_task at h
      split at h
      · cases h
      · cases h
        simp only [free]
        rw [cli_outputs_s_cli_task]
    · rfl

/-- Witness of C4 amended: the loop task 7 on the line `"state"` while the
worker runs the item. -/
theorem ot_cli_loop_never_writes_slot_witness :
    state_cmd ≠ [] ∧ state_cmd.take 4 ≠ ESP_CONSOLE_PREFIX ∧
    (∀ t, (env_worker.others t).s_cli_task = t.s_cli_task) ∧
    slot_stores (ot_cli_loop env_worker 7 0 (some state_cmd)
      (State.mk (some 7) [] [] [])).calls = [] ∧
    (ot_cli_loop env_worker 7 0 (some state_cmd)
      (State.mk (some 7) [] [] [])).state.s_cli_task = some 7 ∧
    ∀ h, (ot_cli_loop env_worker 7 0 (some state_cmd)
      (esp_openthread_cli_create_task (some h) (State.mk (some 7) [] [] []))).state.s_cli_task
        = some h :=
  ⟨by decide, by decide, worker_process_s_cli_task cli_done,
    ot_cli_loop_never_writes_slot env_worker 7 0 state_cmd (State.mk (some 7) [] [] [])
      (by decide) (by decide) (worker_process_s_cli_task cli_done)⟩

theorem signal_then_wait (self : Nat) (text : List Nat) (s : State)
    (hprompt : text.take 2 = PROMPT) (hreg : s.s_cli_task = some self) :
    (cli_output_callback text s).calls = [Event.xTaskNotifyGive self] ∧
    ∃ t, xTaskNotifyWait self (cli_output_callback text s).state = some t ∧
      self ∉ t.pending ∧ t.s_cli_task = some self := by
  have hc : strncmp (vsnprintf 3 text) PROMPT 3 = 0 := by
    simp only [vsnprintf, hprompt]; decide
  have hmem : self ∈ (xTaskNotifyGive self s).pending := by
    simp only [xTaskNotifyGive]; split_ifs with h
    · exact h
    · simp
  have hslot : (xTaskNotifyGive self s).s_cli_task = some self := by
    simp only [xTaskNotifyGive]; split_ifs <;> exact hreg
  simp only [cli_output_callback, hc, hreg, if_true, xTaskNotifyWait, hmem]
  refine ⟨trivial, _, rfl, ?_, hslot⟩
  simp [List.mem_filter]

/-- C7: after a successful submit, when the worker issues the completion
signal (`cli_output_callback` on an output that starts with the prompt, hence
`xTaskNotifyGive` on the registered waiter) after the waiter was registered and
before the submitting task reaches `xTaskNotifyWait`, the wait returns: the
console callback is not blocked, returns with the notification consumed and
the slot cleared, and the loop, whose handle is the registered waiter, is not
blocked either and goes on to the history. -/
theorem signal_before_wait_is_observed
    (reg : List Nat → Int → State → (Int × Int) × State) (self : Nat) (text : List Nat)
    (hprompt : text.take 2 = PROMPT) :
    (∀ argv s, (cli_cmd_steps argv).isSome = true →
      ∃ r, ot_cli_console_callback
          (Env.mk true true reg (fun t => (cli_output_callback text t).state)) self argv s
          = some r ∧
        r.blocked = false ∧ self ∉ r.state.pending ∧ r.state.s_cli_task = none) ∧
    (∀ ret line s, line ≠ [] → line.take 4 ≠ ESP_CONSOLE_PREFIX → s.s_cli_task = some self →
      (ot_cli_loop (Env.mk true true reg (fun t => (cli_output_callback text t).state))
          self ret (some line) s).blocked = false ∧
      self ∉ (ot_cli_loop (Env.mk true true reg (fun t => (cli_output_callback text t).state))
          self ret (some line) s).state.pending ∧
      history_calls (ot_cli_loop (Env.mk true true reg
          (fun t => (cli_output_callback text t).state)) self ret (some line) s).calls
        = [line]) := by
  constructor
  · intro argv s hsome
    obtain ⟨steps, hsteps⟩ := Option.isSome_iff_exists.mp hsome
    generalize hcmd : c_str (steps.getLastD []) = cmd
    obtain ⟨_, t, ht, hpend, _⟩ := signal_then_wait self text
      (esp_openthread_cli_input true true cmd { s with s_cli_task := some self }).state
      hprompt (input_s_cli_task _ _ _ _)
    have hok : (esp_openthread_cli_input true true cmd
        { s with s_cli_task := some self }).ret = ESP_OK := rfl
    simp only [ot_cli_console_callback, hsteps, hcmd, hok, if_true, ht]
    refine ⟨_, rfl, ?_, ?_, ?_⟩
    · rfl
    · exact hpend
    · rfl
  · intro ret line s hne hp hreg
    have h0 : ¬ strnlen line OT_CLI_MAX_LINE_LENGTH = 0 := by
      rw [strnlen_eq_zero_iff]; exact hne
    have hm : ¬ memcmp (line ++ [0]) ESP_CONSOLE_PREFIX ESP_CONSOLE_PREFIX_LENGTH = 0 := by
      rw [memcmp_prefix_iff]; exact hp
    obtain ⟨_, t, ht, hpend, _⟩ := signal_then_wait self text
      (esp_openthread_cli_input true true line s).state
      hprompt ((input_s_cli_task _ _ _ _).trans hreg)
    have hok : (esp_openthread_cli_input true true line s).ret = ESP_OK := rfl
    simp only [ot_cli_loop, h0, hm, if_false, hok, if_true, ht]
    refine ⟨trivial, hpend, ?_⟩
    simp [history_calls, List.filterMap_append, esp_openthread_cli_input, strdup]

/-- Witness of C7: task 2 runs `ot state` through the console callback and
the prompt is output before it waits. -/
theorem signal_before_wait_is_observed_witness :
    PROMPT.take 2 = PROMPT ∧
    (cli_cmd_steps [ot_name, state_cmd]).isSome = true ∧
    ∃ r, ot_cli_console_callback
        (Env.mk true true no_commands (fun t => (cli_output_callback PROMPT t).state)) 2
        [ot_name, state_cmd] idle = some r ∧
      r.blocked = false ∧ 2 ∉ r.state.pending ∧ r.state.s_cli_task = none :=
  ⟨rfl, by decide,
    (signal_before_wait_is_observed no_commands 2 PROMPT rfl).1 [ot_name, state_cmd] idle
      (by decide)⟩

/-- C8: when no waiter is registered, `cli_output_callback` issues no task
notification whatever the output is, the prompt included; it forwards the
output to `vprintf` and leaves the whole shared state, the waiter slot and the
pending notifications in particular, as it was. -/
theorem cli_output_callback_without_waiter (text : List Nat) (s : State)
    (h : s.s_cli_task = none) :
    notify_calls (cli_output_callback text s).calls = [] ∧
    (cli_output_callback text s).calls = [Event.vprintf text] ∧
    (cli_output_callback text s).state = s ∧
    (cli_output_callback text s).state.s_cli_task = none ∧
    (cli_output_callback text s).state.pending = s.pending := by
  have hr : cli_output_callback text s = Run.mk [Event.vprintf text] s false text.length := by
    simp only [cli_output_callback, h]
    split_ifs <;> rfl
  rw [hr]
  exact ⟨rfl, rfl, rfl, h, rfl⟩

/-- Witness of C8: the prompt arrives while the slot is empty and no task has
a notification pending. -/
theorem cli_output_callback_without_waiter_witness :
    idle.s_cli_task = none ∧
    notify_calls (cli_output_callback PROMPT idle).calls = [] ∧
    (cli_output_callback PROMPT idle).calls = [Event.vprintf PROMPT] ∧
    (cli_output_callback PROMPT idle).state = idle ∧
    (cli_output_callback PROMPT idle).state.s_cli_task = none ∧
    (cli_output_callback PROMPT idle).state.pending = idle.pending :=
  ⟨rfl, cli_output_callback_without_waiter PROMPT idle rfl⟩

/-! ## Empty and blank lines -/

/-- C9, as stated, fails: the line `" "` (one space) is not discarded. The
loop submits it to the worker and adds it to the history. -/
theorem ot_cli_loop_keeps_blank_line :
    ot_cli_loop env_worker 7 0 (some [32]) (State.mk (some 7) [] [] [])
      = Run.mk
          [Event.printf Msg.crlf, Event.esp_openthread_cli_input [32],
           Event.strdup [32] (some 1),
           Event.task_queue_post Handler.line_handle_task 1 ESP_OK,
           Event.xTaskNotifyWait, Event.linenoiseHistoryAdd [32],
           Event.linenoiseFree (some [32])]
          (State.mk (some 7) [] [] []) false 0 ∧
    submit_calls (ot_cli_loop env_worker 7 0 (some [32]) (State.mk (some 7) [] [] [])).calls
      = [[32]] ∧
    history_calls (ot_cli_loop env_worker 7 0 (some [32]) (State.mk (some 7) [] [] [])).calls
      = [[32]] := by
  decide

theorem ot_cli_loop_nonempty_kept (env : Env) (self : Nat) (ret : Int) (l : List Nat)
    (s : State) (hne : l ≠ []) :
    (registry_calls (ot_cli_loop env self ret (some l) s).calls ≠ [] ∨
      submit_calls (ot_cli_loop env self ret (some l) s).calls ≠ []) ∧
    ((ot_cli_loop env self ret (some l) s).blocked = false →
      history_calls (ot_cli_loop env self ret (some l) s).calls = [l]) := by
  have h0 : ¬ strnlen l OT_CLI_MAX_LINE_LENGTH = 0 := by
    rw [strnlen_eq_zero_iff]; exact hne
  have hh : ∀ e ∈ (esp_openthread_cli_input env.malloc_ok env.post_ok l s).calls,
      (match e with
        | Event.linenoiseHistoryAdd x => some x
        | _ => none) = none := by
    intro e he
    unfold esp_openthread_cli_input strdup at he
    cases hm : env.malloc_ok <;> simp [hm] at he <;> rcases he with rfl | rfl <;> rfl
  simp only [ot_cli_loop, h0, if_false]
  split_ifs
  · refine ⟨Or.inl (by simp [registry_calls]), fun _ => ?_⟩
    simp only [history_calls, List.filterMap_append, List.filterMap_cons, List.filterMap_nil,
      List.nil_append]
    rw [List.filterMap_eq_nil_iff.mpr]
    · rfl
    · intro e he
      obtain ⟨m, rfl⟩ := report_printf _ _ e he
      rfl
  · split
    · refine ⟨Or.inr (by simp [submit_calls]), fun _ => ?_⟩
      simpa [history_calls, List.filterMap_append] using hh
    · exact ⟨Or.inr (by simp [submit_calls]), fun hb => by simp at hb⟩
  · refine ⟨Or.inr (by simp [submit_calls]), fun _ => ?_⟩
    simpa [history_calls, List.filterMap_append] using hh

/-- C9, amended: a line that is NULL or empty is discarded by `ot_cli_loop`:
the only call is `linenoiseFree`, so there is no registry dispatch, no submit to
the worker and no history entry, and the shared state is unchanged. Every
other line, a line of whitespace included, is not discarded: it is handed to
the registry or submitted to the worker, and it is added to the history when
the iteration completes. -/
theorem ot_cli_loop_discards_empty_line (env : Env) (self : Nat) (ret : Int)
    (line : Option (List Nat)) (s : State) :
    (line = none ∨ line = some [] →
      (ot_cli_loop env self ret line s).calls = [Event.linenoiseFree line] ∧
      registry_calls (ot_cli_loop env self ret line s).calls = [] ∧
      submit_calls (ot_cli_loop env self ret line s).calls = [] ∧
      history_calls (ot_cli_loop env self ret line s).calls = [] ∧
      (ot_cli_loop env self ret line s).state = s) ∧
    (∀ l, line = some l → l ≠ [] →
      (registry_calls (ot_cli_loop env self ret line s).calls ≠ [] ∨
        submit_calls (ot_cli_loop env self ret line s).calls ≠ []) ∧
      ((ot_cli_loop env self ret line s).blocked = false →
        history_calls (ot_cli_loop env self ret line s).calls = [l])) := by
  constructor
  · intro h
    rcases h with rfl | rfl
    · exact ⟨rfl, rfl, rfl, rfl, rfl⟩
    · exact ⟨rfl, rfl, rfl, rfl, rfl⟩
  · intro l hl hne
    subst hl
    exact ot_cli_loop_nonempty_kept env self ret l s hne

/-- Witness of C9 amended: the empty line is discarded, the line `" "` is
submitted. -/
theorem ot_cli_loop_discards_empty_line_witness :
    ((some [] : Option (List Nat)) = none ∨ (some [] : Option (List Nat)) = some []) ∧
    ((ot_cli_loop env_worker 7 0 (some []) idle).calls = [Event.linenoiseFree (some [])] ∧
      registry_calls (ot_cli_loop env_worker 7 0 (some []) idle).calls = [] ∧
      submit_calls (ot_cli_loop env_worker 7 0 (some []) idle).calls = [] ∧
      history_calls (ot_cli_loop env_worker 7 0 (some []) idle).calls = [] ∧
      (ot_cli_loop env_worker 7 0 (some []) idle).state = idle) ∧
    ([32] ≠ ([] : List Nat)) ∧
    (registry_calls (ot_cli_loop env_worker 7 0 (some [32]) idle).calls ≠ [] ∨
      submit_calls (ot_cli_loop env_worker 7 0 (some [32]) idle).calls ≠ []) :=
  ⟨Or.inr rfl,
    (ot_cli_loop_discards_empty_line env_worker 7 0 (some []) idle).1 (Or.inr rfl),
    by decide,
    ((ot_cli_loop_discards_empty_line env_worker 7 0 (some [32]) idle).2 [32] rfl
      (by decide)).1⟩

/-! ## The command line of the console adapter -/

theorem c_str_of_holds (b c : List Nat) (h : holds b c) : c_str b = c := by
  obtain ⟨⟨rest, rfl⟩, _, _, hc⟩ := h
  unfold c_str
  rw [List.takeWhile_append_of_pos]
  · simp
  · intro a ha
    simpa using hc a ha

theorem strlen_of_holds (b c : List Nat) (h : holds b c) : strlen b = some c.length := by
  have hc := c_str_of_holds b c h
  obtain ⟨⟨rest, hb⟩, _, _, _⟩ := h
  have hmem : 0 ∈ b := by rw [hb]; simp
  unfold strlen
  unfold c_str at hc
  rw [if_pos hmem, hc]

theorem length_of_holds (b c : List Nat) (h : holds b c) :
    ∃ rest, b = c ++ 0 :: rest ∧ c.length + rest.length = 255 ∧ rest.getLast?.getD 0 = 0 := by
  obtain ⟨⟨rest, rfl⟩, hlen, hlast, _⟩ := h
  refine ⟨rest, rfl, ?_, ?_⟩
  · simp [OT_CLI_MAX_LINE_LENGTH] at hlen; omega
  · rw [List.getLast?_append, List.getLast?_cons] at hlast
    simpa using hlast

theorem size_sub_room (l : Nat) (h : l ≤ 255) :
    size_sub (size_sub OT_CLI_MAX_LINE_LENGTH l) 1 = 255 - l := by
  unfold size_sub OT_CLI_MAX_LINE_LENGTH
  norm_num
  omega

theorem take_take_append (n : Nat) (x y : List Nat) :
    (x.take n ++ y).take n = (x ++ y).take n := by
  rw [List.take_append_eq_append_take, List.take_append_eq_append_take, List.take_take,
    Nat.min_self, List.length_take]
  congr 2
  omega

theorem strncat_holds (b c a : List Nat) (h : holds b c) (ha : ∀ x ∈ a, x ≠ 0) :
    ∃ b2, strncat b a (255 - c.length) = some b2 ∧ holds b2 ((c ++ a).take 255) := by
  obtain ⟨rest, hb, hlen, hlast⟩ := length_of_holds b c h
  have hs := strlen_of_holds b c h
  have hfit : c.length + min (255 - c.length) a.length + 1 ≤ b.length := by
    rw [hb]; simp; omega
  have hdrop : b.drop (c.length + min (255 - c.length) a.length + 1)
      = rest.drop (min (255 - c.length) a.length) := by
    rw [hb, Nat.add_assoc, List.drop_append]
    rfl
  have htake : b.take c.length = c := by rw [hb, List.take_left]
  have hcat : (c ++ a).take 255 = c ++ a.take (255 - c.length) := by
    rw [List.take_append_eq_append_take, List.take_of_length_le (by omega)]
  refine ⟨c ++ a.take (255 - c.length) ++ 0 :: rest.drop (min (255 - c.length) a.length), ?_, ?_⟩
  · simp only [strncat, hs, if_pos hfit, hdrop, htake]
  · rw [hcat]
    refine ⟨⟨_, rfl⟩, ?_, ?_, ?_⟩
    · simp [OT_CLI_MAX_LINE_LENGTH]; omega
    · rw [List.getLast?_append, List.getLast?_cons, List.getLast?_drop]
      split_ifs
      · rfl
      · simp [hlast]
    · intro x hx
      rcases List.mem_append.mp hx with hx | hx
      · exact h.2.2.2 x hx
      · exact ha x (List.mem_of_mem_take hx)

theorem holds_zeroed : holds (List.replicate OT_CLI_MAX_LINE_LENGTH 0) [] := by
  refine ⟨⟨List.replicate 255 0, rfl⟩, by simp, ?_, by simp⟩
  rw [List.getLast?_replicate]
  rfl

theorem strncpy_holds (a : List Nat) (ha : ∀ x ∈ a, x ≠ 0) :
    ∃ b1, strncpy (List.replicate OT_CLI_MAX_LINE_LENGTH 0) a 255 = some b1 ∧
      holds b1 (a.take 255) := by
  have hdrop : (List.replicate OT_CLI_MAX_LINE_LENGTH 0).drop 255 = [0] := by
    simp [OT_CLI_MAX_LINE_LENGTH]
  refine ⟨a.take 255 ++ List.replicate (255 - a.length) 0 ++ [0], ?_, ?_⟩
  · simp only [strncpy, hdrop]
    rw [if_pos]
    simp [OT_CLI_MAX_LINE_LENGTH]
  · refine ⟨⟨List.replicate (255 - a.length) 0, ?_⟩, ?_, ?_, ?_⟩
    · rw [List.append_assoc, ← List.replicate_succ', List.replicate_succ]
    · simp [OT_CLI_MAX_LINE_LENGTH]; omega
    · rw [List.getLast?_append]; rfl
    · intro x hx
      exact ha x (List.mem_of_mem_take hx)

theorem cli_cmd_loop_holds (rest : List (List Nat)) :
    ∀ b c0, holds b (c0.take 255) → (∀ a ∈ rest, ∀ x ∈ a, x ≠ 0) →
      ∃ tl, cli_cmd_loop b rest = some tl ∧ tl.length = 2 * rest.length ∧
        (∀ x ∈ tl, ∃ c, holds x c) ∧
        holds ((b :: tl).getLast?.getD [])
          ((rest.foldl (fun acc a => acc ++ 32 :: a) c0).take 255) := by
  induction rest with
  | nil =>
    intro b c0 h _
    exact ⟨[], rfl, rfl, by simp, by simpa using h⟩
  | cons a rest ih =>
    intro b c0 h hstr
    have hl := length_of_holds b _ h
    obtain ⟨_, _, hlen, _⟩ := hl
    obtain ⟨b1, hb1, hh1⟩ := strncat_holds b _ [32] h (by simp)
    have hl1 := length_of_holds b1 _ hh1
    obtain ⟨_, _, hlen1, _⟩ := hl1
    obtain ⟨b2, hb2, hh2⟩ := strncat_holds b1 _ a hh1 (hstr a (by simp))
    rw [take_take_append, List.append_assoc, take_take_append] at hh2
    obtain ⟨tl, htl, hn, hall, hlast⟩ := ih b2 (c0 ++ ([32] ++ a)) hh2
      (fun a2 h2 => hstr a2 (List.mem_cons_of_mem _ h2))
    have hturn : cli_cmd_turn b a = some (b1, b2) := by
      simp only [cli_cmd_turn, strlen_of_holds b _ h]
      rw [size_sub_room _ (by omega), hb1]
      simp only [strlen_of_holds b1 _ hh1]
      rw [size_sub_room _ (by omega), hb2]
    refine ⟨b1 :: b2 :: tl, ?_, ?_, ?_, ?_⟩
    · simp only [cli_cmd_loop, hturn, htl]
    · simp [hn]; omega
    · intro x hx
      rcases List.mem_cons.mp hx with rfl | hx
      · exact ⟨_, hh1⟩
      · rcases List.mem_cons.mp hx with rfl | hx
        · exact ⟨_, hh2⟩
        · exact hall x hx
    · rw [List.getLast?_cons_cons, List.getLast?_cons_cons]
      simpa using hlast

theorem foldl_eq_intercalate (rest : List (List Nat)) :
    ∀ a, rest.foldl (fun acc x => acc ++ 32 :: x) a = List.intercalate [32] (a :: rest) := by
  induction rest with
  | nil => intro a; simp [List.intercalate]
  | cons b rest ih =>
    intro a
    rw [List.foldl_cons, ih]
    cases rest <;> simp [List.intercalate, List.intersperse]

theorem cli_cmd_steps_holds (a0 a1 : List Nat) (rest : List (List Nat))
    (hstr : ∀ a ∈ a1 :: rest, ∀ x ∈ a, x ≠ 0) :
    ∃ steps, cli_cmd_steps (a0 :: a1 :: rest) = some steps ∧
      steps.length = 2 * (rest.length + 1) ∧
      (∀ b ∈ steps, ∃ c, holds b c) ∧
      holds (steps.getLastD []) ((List.intercalate [32] (a1 :: rest)).take 255) := by
  have h0 := holds_zeroed
  obtain ⟨b1, hb1, hh1⟩ := strncpy_holds a1 (hstr a1 (by simp))
  obtain ⟨tl, htl, hn, hall, hlast⟩ := cli_cmd_loop_holds rest b1 a1 hh1
    (fun a h => hstr a (List.mem_cons_of_mem _ h))
  rw [foldl_eq_intercalate] at hlast
  refine ⟨List.replicate OT_CLI_MAX_LINE_LENGTH 0 :: b1 :: tl, ?_, ?_, ?_, ?_⟩
  · simp only [cli_cmd_steps, strlen_of_holds _ _ h0, List.length_nil]
    rw [size_sub_room 0 (by omega), hb1]
    simp only [htl]
  · simp [hn]; omega
  · intro b hb
    rcases List.mem_cons.mp hb with rfl | hb
    · exact ⟨_, h0⟩
    · rcases List.mem_cons.mp hb with rfl | hb
      · exact ⟨_, hh1⟩
      · exact hall b hb
  · rw [List.getLastD_eq_getLast?, List.getLast?_cons_cons]
    exact hlast

/-- C10: for an argument vector with `argc >= 2` whose arguments are C
strings, the `strncpy`/`strncat` sequence of `ot_cli_console_callback` never
faults: after the initialisation and after each of its `2 * (argc - 1) - 1`
calls the buffer has its 256 bytes and byte 255 is NUL; and the command line
that the callback hands to `esp_openthread_cli_input` is `argv[1]`, ...,
`argv[argc-1]` joined by single spaces, cut to its first 255 bytes. -/
theorem ot_cli_console_callback_builds_line (env : Env) (self : Nat)
    (argv : List (List Nat)) (s : State) (hargc : 2 ≤ argv.length)
    (hstr : ∀ a ∈ argv.tail, ∀ x ∈ a, x ≠ 0) :
    ∃ steps r, cli_cmd_steps argv = some steps ∧
      steps.length = 2 * (argv.length - 1) ∧
      (∀ b ∈ steps, b.length = OT_CLI_MAX_LINE_LENGTH ∧ b[255]? = some 0) ∧
      c_str (steps.getLastD []) = (List.intercalate [32] argv.tail).take 255 ∧
      ot_cli_console_callback env self argv s = some r ∧
      submit_calls r.calls = [(List.intercalate [32] argv.tail).take 255] := by
  rcases argv with _ | ⟨a0, _ | ⟨a1, rest⟩⟩
  · simp at hargc
  · simp at hargc
  · obtain ⟨steps, hsteps, hn, hall, hlast⟩ := cli_cmd_steps_holds a0 a1 rest hstr
    have hline := c_str_of_holds _ _ hlast
    have hsub : ∀ (m q : Bool) (l : List Nat) (t : State),
        ∀ e ∈ (esp_openthread_cli_input m q l t).calls,
          (match e with
            | Event.esp_openthread_cli_input l => some l
            | _ => none) = none :=
      fun m q l t => List.filterMap_eq_nil_iff.mp (submit_calls_input m q l t)
    have hcall : ∃ r, ot_cli_console_callback env self (a0 :: a1 :: rest) s = some r ∧
        submit_calls r.calls = [c_str (steps.getLastD [])] := by
      simp only [ot_cli_console_callback, hsteps]
      generalize c_str (steps.getLastD []) = cmd
      split_ifs
      · split
        · exact ⟨_, rfl, by simpa [submit_calls, List.filterMap_append] using hsub _ _ _ _⟩
        · exact ⟨_, rfl, by simpa [submit_calls, List.filterMap_append] using hsub _ _ _ _⟩
      · exact ⟨_, rfl, by simpa [submit_calls, List.filterMap_append] using hsub _ _ _ _⟩
    obtain ⟨r, hr, hrs⟩ := hcall
    refine ⟨steps, r, hsteps, ?_, ?_, hline, hr, ?_⟩
    · simp [hn]
    · intro b hb
      obtain ⟨c, hc⟩ := hall b hb
      refine ⟨hc.2.1, ?_⟩
      have h1 := hc.2.2.1
      rw [List.getLast?_eq_getElem?, hc.2.1] at h1
      exact h1
    · rw [hrs, hline]
      rfl

/-- Witness of C10: `ot state` gives the line `"state"`, and `ot a b` gives
`"a b"`. -/
theorem ot_cli_console_callback_builds_line_witness :
    2 ≤ [ot_name, [97], [98]].length ∧
    (∀ a ∈ [ot_name, [97], [98]].tail, ∀ x ∈ a, x ≠ 0) ∧
    (List.intercalate [32] [ot_name, [97], [98]].tail).take 255 = [97, 32, 98] ∧
    ∃ steps r, cli_cmd_steps [ot_name, [97], [98]] = some steps ∧
      steps.length = 2 * ([ot_name, [97], [98]].length - 1) ∧
      (∀ b ∈ steps, b.length = OT_CLI_MAX_LINE_LENGTH ∧ b[255]? = some 0) ∧
      c_str (steps.getLastD []) = (List.intercalate [32] [ot_name, [97], [98]].tail).take 255 ∧
      ot_cli_console_callback env_worker 2 [ot_name, [97], [98]] idle = some r ∧
      submit_calls r.calls = [(List.intercalate [32] [ot_name, [97], [98]].tail).take 255] :=
  ⟨by decide, by decide, by decide,
    ot_cli_console_callback_builds_line env_worker 2 [ot_name, [97], [98]] idle
      (by decide) (by decide)⟩

end OtCli
